import Mathlib

/-!
Verification of the fomod-validator warning engine
(`fomod/validator/warnings.py`) against its natural-language
specification.

The Python module is shallowly embedded below.  Elements of the parsed
XML tree become the inductive `Fomod.Element`; the ambient filesystem
(`os.path.isdir` / `os.path.isfile`) becomes the record `Fomod.FS`; the
external collaborators `check_fomod`, `check_file` and `etree.parse`
become the record `Fomod.Collab`; Python exceptions become the error
type `Fomod.PyErr`, and fallible code returns `Except PyErr _`.
-/

namespace Fomod

/--
Error kinds raised by the validator.  The exception classes live in the
repository's `fomod.validator.exceptions` module, which is not part of
the provided source; modelled from the spec's error taxonomy
(`MissingFolderError`, `MissingFileError`, `ParserError`,
`WarningsFound`/`WarningError`) as pairwise-distinct kinds, plus
`parseError` for the XML library's parse failure and `typeError` for
the interpreter's built-in `TypeError`.
-/
inductive PyErr where
  | missingFolderError
  | missingFileError
  | parseError (msg : String)
  | parserError (msg : String)
  | warningError (msg : String)
  | typeError (msg : String)
deriving DecidableEq, Repr

/--
A node of the parsed descriptor tree, mirroring the lxml element
interface used by the source: a string `tag`, string-valued attributes,
the 1-based `sourceline`, and the list of child elements.
-/
inductive Element where
  | mk (tag : String) (attrs : List (String × String)) (sourceline : Nat)
      (children : List Element)

def Element.tag : Element → String
  | .mk t _ _ _ => t

def Element.attrs : Element → List (String × String)
  | .mk _ a _ _ => a

def Element.sourceline : Element → Nat
  | .mk _ _ n _ => n

def Element.children : Element → List Element
  | .mk _ _ _ c => c

/-- `elem.get(name)`: attribute lookup, `None` (here `none`) if absent. -/
def Element.get (e : Element) (name : String) : Option String :=
  (e.attrs.find? (fun q => q.1 == name)).map (fun q => q.2)

mutual

/--
`element.iter()`: document-order (pre-order, depth-first) traversal of
the subtree rooted at the element, the element itself included.
-/
def Element.iter : Element → List Element
  | .mk t a n cs => .mk t a n cs :: iterAll cs

/-- Concatenated `iter` traversals of a list of sibling elements. -/
def iterAll : List Element → List Element
  | [] => []
  | e :: es => e.iter ++ iterAll es

end

/-! ### String helpers and models of Python string/path primitives -/

/-- Python string slicing `s[:-1]`: drop the last character. -/
def strDropLast (s : String) : String := ⟨s.data.dropLast⟩

/-- Concatenation of a list of strings, in order. -/
def sjoin : List String → String
  | [] => ""
  | s :: l => s ++ sjoin l

/--
Model of `os.path.join(a, b)` (posix) for the cases the validator
exercises: an absolute second component wins, otherwise the components
are joined with a single separator.
-/
def pyJoinStr (a b : String) : String :=
  if b.data.head? = some '/' then b
  else if a.data = [] then b
  else if a.data.getLast? = some '/' then a ++ b
  else a ++ "/" ++ b

/-- Payload of the `TypeError` raised by `os.path.join(a, None)`. -/
def joinNoneMsg : String :=
  "join() argument must be str, bytes, or os.PathLike object, not NoneType"

/--
`os.path.join(a, x)` where `x` came from an attribute lookup and may be
`None`: joining `None` raises `TypeError` in Python.
-/
def pyJoinOpt (a : String) : Option String → Except PyErr String
  | none => .error (.typeError joinNoneMsg)
  | some b => .ok (pyJoinStr a b)

/-- Fuel-indexed core of `str.replace`; the fuel is the input length,
which suffices because every step consumes at least one character. -/
def replAux (pat rep : List Char) : Nat → List Char → List Char
  | _, [] => []
  | 0, l => l
  | fuel + 1, c :: rest =>
    if pat.isPrefixOf (c :: rest) then
      rep ++ replAux pat rep fuel ((c :: rest).drop pat.length)
    else
      c :: replAux pat rep fuel rest

/--
Model of Python `str.replace(pattern, replacement)` for a nonempty
pattern (the source only calls it with the pattern `"\x7b\x7d"`):
replace every non-overlapping occurrence, left to right.
-/
def pyReplace (s pattern replacement : String) : String :=
  if pattern.data = [] then s
  else ⟨replAux pattern.data replacement.data s.data.length s.data⟩

/-! ### Ambient filesystem and external collaborators -/

/-- The host filesystem consulted by `os.path.isdir` / `os.path.isfile`. -/
structure FS where
  isdir : String → Bool
  isfile : String → Bool

/--
The external collaborators of `check_warnings` (spec §6): `check_fomod`
locates the descriptor subfolder of a package, `check_file` finds the
descriptor file inside it, and `parse` turns the descriptor file into an
element tree.  They live in `fomod.validator.utility` / `lxml`, outside
the provided source, so they are abstract fallible functions here.
-/
structure Collab where
  check_fomod : String → Except PyErr String
  check_file : String → Except PyErr String
  parse : String → Except PyErr Element

/-! ### Predicates (`condition` arguments of `_WarningElement`) -/

/--
A rule's `condition` callable.  The source passes either a one-parameter
lambda or a two-parameter lambda; the shape is part of the value here,
exactly as the callable's arity is in Python.
-/
inductive Condition where
  | single (f : Element → Except PyErr Bool)
  | group (f : Element → List Element → Except PyErr Bool)

/--
The source's arity test `signature(condition).parameters == 2`.
`signature(condition).parameters` is a mapping (an `OrderedDict` of
parameter objects); comparing a mapping with the integer `2` by `==` is
always `False` in Python (no error is raised), whatever the arity of
`condition` is.  The embedding therefore evaluates the test to `false`
for every condition.
-/
def signatureParamsEq2 (_condition : Condition) : Bool := false

/-- Payload of the `TypeError` raised when a two-parameter lambda is
called with a single argument. -/
def missingArgMsg : String := "missing 1 required positional argument"

/-- Payload of the `TypeError` raised when a one-parameter lambda is
called with two arguments. -/
def tooManyArgsMsg : String := "takes 1 positional argument but 2 were given"

/--
The call site of `condition` inside `_WarningElement.__init__`: when the
arity test succeeds the condition is called as `condition(elem,
tag_list)`, otherwise as `condition(elem)`.  Calling a lambda with the
wrong number of arguments raises `TypeError`.
-/
def callCondition (condition : Condition) (elem : Element)
    (tag_list : List Element) : Except PyErr Bool :=
  if signatureParamsEq2 condition then
    match condition with
    | .group f => f elem tag_list
    | .single _ => .error (.typeError tooManyArgsMsg)
  else
    match condition with
    | .single f => f elem
    | .group _ => .error (.typeError missingArgMsg)

/--
Direct application of a condition to an element and its full matched
group, the way the source's two-parameter lambdas are declared to be
called: a group condition receives both arguments, a single-element
condition only the element.
-/
def groupApply (condition : Condition) (elem : Element)
    (tag_list : List Element) : Except PyErr Bool :=
  match condition with
  | .single f => f elem
  | .group f => f elem tag_list

/-! ### `_ElementLog` -/

/--
The per-rule log built by `_ElementLog.__init__`: the positive elements
grouped by tag (`self.elements`, an insertion-ordered dict) and the
message synthesized for each tag (`self.msgs`).
-/
structure ElementLog where
  elements : List (String × List Element)
  title : String
  msgs : List (String × String)

/--
One step of the `self.elements` grouping loop: append the element to
its tag's bucket if the tag is already a key, otherwise add a new
key at the end (Python dicts preserve insertion order).
-/
def insertGrouped (d : List (String × List Element)) (e : Element) :
    List (String × List Element) :=
  if d.any (fun q => q.1 == e.tag) then
    d.map (fun q => if q.1 == e.tag then (q.1, q.2 ++ [e]) else q)
  else
    d ++ [(e.tag, [e])]

/-- One step of the `self.msgs` loop: dict assignment `m[k] = v`. -/
def msgsInsert (m : List (String × String)) (k v : String) :
    List (String × String) :=
  if m.any (fun q => q.1 == k) then
    m.map (fun q => if q.1 == k then (q.1, v) else q)
  else
    m ++ [(k, v)]

/-- Ordered-dict lookup used when rendering (`log.msgs[tag]`); the logs
built by `_WarningElement` always contain the key, so the default is
never consulted there. -/
def msgsGet (m : List (String × String)) (k : String) : String :=
  ((m.find? (fun q => q.1 == k)).map (fun q => q.2)).getD ""

/-- `_ElementLog.__init__(elements, title, msg)`. -/
def mkElementLog (elements : List Element) (title msg : String) : ElementLog :=
  { elements := elements.foldl insertGrouped []
    title := title
    msgs := elements.foldl
      (fun m e => msgsInsert m e.tag (pyReplace msg "\x7b\x7d" e.tag)) [] }

/-! ### The rule set -/

/-- A `_WarningElement` construction request: the tag set, title,
message template and condition passed by `check_warnings`. -/
structure Rule where
  tags : List String
  title : String
  error_msg : String
  condition : Condition

/-- Tag set of the "Repeated Elements" rule. -/
def repeatedTags : List String :=
  ["moduleName", "moduleImage", "moduleDependencies", "requiredInstallFiles",
   "installSteps", "conditionalFileInstalls"]

/-- The two-parameter duplicate-detection lambda:
`lambda elem, x: sum(1 for value in x if value.tag == elem.tag) >= 2`. -/
def repeatedCondition : Condition :=
  .group (fun elem x =>
    .ok (decide (2 ≤ x.countP (fun value => value.tag == elem.tag))))

/-- `lambda elem: not isdir(join(package_path, elem.get("source")))`. -/
def folderCondition (fs : FS) (package_path : String) : Condition :=
  .single (fun elem =>
    match pyJoinOpt package_path (elem.get "source") with
    | .error e => .error e
    | .ok p => .ok (!fs.isdir p))

/-- `lambda elem: not isfile(join(package_path, elem.get("source")))`. -/
def fileCondition (fs : FS) (package_path : String) : Condition :=
  .single (fun elem =>
    match pyJoinOpt package_path (elem.get "source") with
    | .error e => .error e
    | .ok p => .ok (!fs.isfile p))

/-- `lambda elem: not isfile(join(package_path, elem.get("path")))`. -/
def imagesCondition (fs : FS) (package_path : String) : Condition :=
  .single (fun elem =>
    match pyJoinOpt package_path (elem.get "path") with
    | .error e => .error e
    | .ok p => .ok (!fs.isfile p))

/-- The "Repeated Elements" rule. -/
def repeatedRule : Rule :=
  { tags := repeatedTags
    title := "Repeated Elements"
    error_msg :=
      "The tag \x7b\x7d has several occurrences, this may produce unexpected results."
    condition := repeatedCondition }

/-- The "Missing Source Folders" rule. -/
def folderRule (fs : FS) (package_path : String) : Rule :=
  { tags := ["folder"]
    title := "Missing Source Folders"
    error_msg :=
      "These source folders weren't found inside the package. The installers ignore this so be sure to fix it."
    condition := folderCondition fs package_path }

/-- The "Missing Source Files" rule. -/
def fileRule (fs : FS) (package_path : String) : Rule :=
  { tags := ["file"]
    title := "Missing Source Files"
    error_msg :=
      "These source files weren't found inside the package. The installers ignore this so be sure to fix it."
    condition := fileCondition fs package_path }

/-- The "Missing Images" rule. -/
def imagesRule (fs : FS) (package_path : String) : Rule :=
  { tags := ["moduleImage", "image"]
    title := "Missing Images"
    error_msg :=
      "These images weren't found inside the package. The installers ignore this so be sure to fix it."
    condition := imagesCondition fs package_path }

/-- The four rules, in the order `check_warnings` constructs them. -/
def makeRules (fs : FS) (package_path : String) : List Rule :=
  [repeatedRule, folderRule fs package_path, fileRule fs package_path,
   imagesRule fs package_path]

/-- Union of all rules' tag sets. -/
def allRuleTags : List String :=
  repeatedTags ++ ["folder"] ++ ["file"] ++ ["moduleImage", "image"]

/-! ### `_WarningElement` -/

/--
The `for elem in tag_list` loop of `_WarningElement.__init__`: evaluate
the condition on each matched element in turn (each call receiving the
full `tag_list`, as the source's call site does), appending positive
elements to `tag_result`; the first exception aborts the loop and
propagates.
-/
def evalLoop (condition : Condition) (tag_list : List Element) :
    List Element → List Element → Except PyErr (List Element)
  | tag_result, [] => .ok tag_result
  | tag_result, elem :: rest =>
    match callCondition condition elem tag_list with
    | .error e => .error e
    | .ok b =>
      evalLoop condition tag_list
        (if b then tag_result ++ [elem] else tag_result) rest

/--
`_WarningElement.__init__(elem_root, tags, title, error_msg,
condition)`, returning the `tag_log` attribute: the matched elements
are collected from `elem_root.iter()` in document order, the condition
is evaluated on each, and a log is built when `tag_result` is nonempty
(`_ElementLog(...) if tag_result else None`).
-/
def warningElement (elem_root : Element) (r : Rule) :
    Except PyErr (Option ElementLog) :=
  let tag_list := elem_root.iter.filter (fun e => r.tags.contains e.tag)
  match evalLoop r.condition tag_list [] tag_list with
  | .error e => .error e
  | .ok tag_result =>
    .ok (if tag_result.isEmpty then none
         else some (mkElementLog tag_result r.title r.error_msg))

/-! ### `_log_warnings` -/

/-- Inner number loop: `result += " " + str(elem.sourceline) + ","`. -/
def lineChunk (r : String) (e : Element) : String :=
  r ++ " " ++ toString e.sourceline ++ ","

/--
Body of the `for tag in log.elements` loop: emit `"Lines"`, the comma
terminated source lines of the tag's bucket, strip the final comma from
the accumulated string (`result = result[:-1]`), then the tag's message.
-/
def tagChunk (msgs : List (String × String)) (res : String)
    (p : String × List Element) : String :=
  strDropLast (p.2.foldl lineChunk (res ++ "Lines")) ++ ": " ++
    msgsGet msgs p.1 ++ "<br>"

/--
Body of the `for log in list_` loop of `_log_warnings`: a `None` log
contributes nothing; otherwise the title heading, the tag groups in the
dict's insertion order, and a blank section.
-/
def logChunk (result : String) (olog : Option ElementLog) : String :=
  match olog with
  | none => result
  | some log =>
    (log.elements.foldl (tagChunk log.msgs)
      (result ++ "<i>" ++ log.title ++ "</i><br><br>")) ++ "<br><br>"

/-- `_log_warnings(list_)`: render the logs into one report string. -/
def logWarnings (list_ : List (Option ElementLog)) : String :=
  list_.foldl logChunk ""

/-! ### `check_warnings` -/

/--
The no-tree branch of `check_warnings`: locate the descriptor folder,
the descriptor file, and parse it
(`etree.parse(join(package_path, fomod_folder, config_file)).getroot()`).
-/
def parseDescriptor (c : Collab) (package_path : String) :
    Except PyErr Element :=
  match c.check_fomod package_path with
  | .error e => .error e
  | .ok fomod_folder =>
    match c.check_file (pyJoinStr package_path fomod_folder) with
    | .error e => .error e
    | .ok config_file =>
      c.parse (pyJoinStr (pyJoinStr package_path fomod_folder) config_file)

/--
`if not elem_tree: ... else: config_root = elem_tree`.  `not None` is
true; for an lxml element, truth testing is `len(children) != 0`, so a
childless supplied tree also takes the parsing branch.
-/
def resolveRoot (c : Collab) (package_path : String)
    (elem_tree : Option Element) : Except PyErr Element :=
  match elem_tree with
  | none => parseDescriptor c package_path
  | some t =>
    if t.children.isEmpty then parseDescriptor c package_path else .ok t

/--
Construction of `element_list` and `log_list`: the four
`_WarningElement` constructors run in order (a raised exception aborts
the list display) and their `tag_log` attributes are collected.
-/
def runEngine (fs : FS) (package_path : String) (config_root : Element) :
    Except PyErr (List (Option ElementLog)) :=
  match warningElement config_root repeatedRule with
  | .error e => .error e
  | .ok w1 =>
    match warningElement config_root (folderRule fs package_path) with
    | .error e => .error e
    | .ok w2 =>
      match warningElement config_root (fileRule fs package_path) with
      | .error e => .error e
      | .ok w3 =>
        match warningElement config_root (imagesRule fs package_path) with
        | .error e => .error e
        | .ok w4 => .ok [w1, w2, w3, w4]

/--
The tail of the `try` block once `config_root` is known: run the rules,
render (`result = _log_warnings(log_list)`), and
`if result: raise WarningError(result)` — a string is truthy exactly
when it is nonempty.
-/
def runBodyOnRoot (fs : FS) (package_path : String) (config_root : Element) :
    Except PyErr Unit :=
  match runEngine fs package_path config_root with
  | .error e => .error e
  | .ok log_list =>
    let result := logWarnings log_list
    if result = "" then .ok () else .error (.warningError result)

/--
The `except` clauses of `check_warnings`: `MissingFolderError` and
`MissingFileError` are re-raised unchanged, `etree.ParseError` is
wrapped as `ParserError(str(e))`, and every other outcome (success,
`WarningError`, `TypeError`, ...) passes through untouched.
-/
def reraise : Except PyErr Unit → Except PyErr Unit
  | .error (.parseError s) => .error (.parserError s)
  | r => r

/-- `check_warnings(package_path, elem_tree=None)`. -/
def check_warnings (c : Collab) (fs : FS) (package_path : String)
    (elem_tree : Option Element) : Except PyErr Unit :=
  reraise
    (match resolveRoot c package_path elem_tree with
     | .error e => .error e
     | .ok config_root => runBodyOnRoot fs package_path config_root)

/-! ### Specification-side descriptions of grouping and rendering

These definitions restate the grouping and rendering contract in a
directly visible form (first-seen key order, per-tag order-preserving
filters, per-block concatenation); the theorems below prove the code
above equal to them.
-/

/-- The distinct members of a list, in order of first occurrence. -/
def firstSeen (l : List String) : List String :=
  l.foldl (fun acc t => if t ∈ acc then acc else acc ++ [t]) []

/--
Grouping of a list of elements by tag: one bucket per distinct tag, the
tags in first-seen order, each bucket the order-preserving filter of the
input to that tag.
-/
def groupSpec (pos : List Element) : List (String × List Element) :=
  (firstSeen (pos.map Element.tag)).map
    (fun t => (t, pos.filter (fun e => e.tag == t)))

/-- The line-number part of a tag group's report line: the source lines
of the bucket's elements, in bucket order, separated by `", "`. -/
def linesBody : List Element → String
  | [] => ""
  | [e] => " " ++ toString e.sourceline
  | e :: e2 :: rest =>
    " " ++ toString e.sourceline ++ "," ++ linesBody (e2 :: rest)

/-- Report line of one tag group. -/
def renderGroupSpec (msgs : List (String × String))
    (p : String × List Element) : String :=
  "Lines" ++ linesBody p.2 ++ ": " ++ msgsGet msgs p.1 ++ "<br>"

/-- Report block of one log: heading, then its tag groups in order. -/
def renderLog : Option ElementLog → String
  | none => ""
  | some log =>
    "<i>" ++ log.title ++ "</i><br><br>" ++
      sjoin (log.elements.map (renderGroupSpec log.msgs)) ++ "<br><br>"

/-! ### Concrete fixtures used by witnesses and counterexamples -/

/-- A filesystem on which no path exists. -/
def fs0 : FS := ⟨fun _ => false, fun _ => false⟩

/-- A childless root element (falsy under lxml truth testing). -/
def emptyRoot : Element := .mk "config" [] 1 []

/-- Collaborators that succeed, parsing to the childless root. -/
def cOk : Collab :=
  ⟨fun _ => .ok "fomod", fun _ => .ok "ModuleConfig.xml",
   fun _ => .ok emptyRoot⟩

/-- Collaborators whose descriptor locator fails. -/
def cFail : Collab :=
  ⟨fun _ => .error .missingFolderError, fun _ => .ok "ModuleConfig.xml",
   fun _ => .ok emptyRoot⟩

/-- A `moduleName` element at the given source line. -/
def mnElem (n : Nat) : Element := .mk "moduleName" [] n []

/-- Tree with two `moduleName` elements (lines 4 and 9). -/
def treeTwoModuleNames : Element := .mk "config" [] 1 [mnElem 4, mnElem 9]

/-- Tree with a single `moduleName` element (line 3). -/
def treeOneModuleName : Element := .mk "config" [] 1 [mnElem 3]

/-- A `folder` element with no attributes (no `source`), line 5. -/
def folderNoSource : Element := .mk "folder" [] 5 []

/-- Tree whose only matched element is a `folder` without `source`. -/
def treeFolderNoSource : Element := .mk "config" [] 1 [folderNoSource]

/-- A `file` element with no attributes (no `source`), line 7. -/
def fileNoSource : Element := .mk "file" [] 7 []

/-- Tree whose only matched element is a `file` without `source`. -/
def treeFileNoSource : Element := .mk "config" [] 1 [fileNoSource]

/-- A tree with no element tagged by any rule. -/
def treeClean : Element :=
  .mk "config" [] 1 [.mk "other" [] 2 [.mk "third" [] 3 []]]

/-- A `folder` element referencing a missing source, line 4. -/
def folderTex : Element := .mk "folder" [("source", "textures")] 4 []

/-- A `folder` element referencing a missing source, line 6. -/
def folderMesh : Element := .mk "folder" [("source", "meshes")] 6 []

/-- Two `folder` elements referencing missing sources (lines 4 and 6). -/
def treeTwoFolders : Element := .mk "config" [] 1 [folderTex, folderMesh]

/-- An `image` element with no attributes (no `path`), line 9. -/
def imageNoPath : Element := .mk "image" [] 9 []

/-- Tree whose only matched element is an `image` without `path`. -/
def treeImageNoPath : Element := .mk "config" [] 1 [imageNoPath]

/-- Tree with a single `installSteps` element (line 2). -/
def treeInstallSteps : Element :=
  .mk "config" [] 1 [.mk "installSteps" [] 2 []]

/-- Collaborators whose descriptor file finder fails. -/
def cFileFail : Collab :=
  ⟨fun _ => .ok "fomod", fun _ => .error .missingFileError,
   fun _ => .ok emptyRoot⟩

/-- Collaborators whose XML parser fails. -/
def cParseFail : Collab :=
  ⟨fun _ => .ok "fomod", fun _ => .ok "ModuleConfig.xml",
   fun _ => .error (.parseError "junk after document element")⟩

/-- Every tag bucket of every log in the list is nonempty — true of all
logs `_WarningElement` builds, and the shape under which `_log_warnings`
renders per block. -/
def NiceLogs (logs : List (Option ElementLog)) : Prop :=
  ∀ olog ∈ logs, ∀ lg, olog = some lg → ∀ p ∈ lg.elements, p.2 ≠ []

/-- The logs the engine produces on `treeTwoFolders` over `fs0`. -/
def witLogs : List (Option ElementLog) :=
  [none,
   some (mkElementLog [folderTex, folderMesh] "Missing Source Folders"
     "These source folders weren't found inside the package. The installers ignore this so be sure to fix it."),
   none, none]

/-! ### String lemmas -/

theorem sdata_append (a b : String) : (a ++ b).data = a.data ++ b.data := rfl

theorem sext {a b : String} (h : a.data = b.data) : a = b := by
  cases a
  cases b
  exact congrArg String.mk h

theorem sappend_assoc (a b c : String) : a ++ b ++ c = a ++ (b ++ c) :=
  sext (by simp [sdata_append])

theorem sappend_empty (a : String) : a ++ "" = a :=
  sext (by simp [sdata_append])

theorem sjoin_cons (s : String) (l : List String) :
    sjoin (s :: l) = s ++ sjoin l := rfl

theorem strDropLast_data (s : String) :
    (strDropLast s).data = s.data.dropLast := rfl

theorem strDropLast_last (a m : String) (c : Char) :
    strDropLast (a ++ (m ++ ⟨[c]⟩)) = a ++ m := by
  apply sext
  simp only [strDropLast_data, sdata_append]
  rw [← List.append_assoc, List.dropLast_concat]

/-! ### `evalLoop` lemmas -/

theorem evalLoop_nil (c : Condition) (tl acc : List Element) :
    evalLoop c tl acc [] = .ok acc := rfl

theorem evalLoop_cons_error {c : Condition} {tl : List Element}
    {e : Element} {err : PyErr} (acc l : List Element)
    (h : callCondition c e tl = .error err) :
    evalLoop c tl acc (e :: l) = .error err := by
  simp [evalLoop, h]

theorem evalLoop_ok_sublist {c : Condition} {tl : List Element} :
    ∀ {l acc r : List Element}, evalLoop c tl acc l = .ok r →
      ∃ s, r = acc ++ s ∧ s.Sublist l := by
  intro l
  induction l with
  | nil =>
    intro acc r h
    exact ⟨[], by simpa [evalLoop] using h.symm, List.Sublist.refl _⟩
  | cons e l ih =>
    intro acc r h
    rw [evalLoop] at h
    cases hc : callCondition c e tl with
    | error err => rw [hc] at h; exact absurd h (by simp)
    | ok b =>
      rw [hc] at h
      cases b with
      | true =>
        obtain ⟨s, hs, hsub⟩ := ih h
        exact ⟨e :: s, by simpa [List.append_assoc] using hs,
          List.Sublist.cons₂ e hsub⟩
      | false =>
        obtain ⟨s, hs, hsub⟩ := ih h
        exact ⟨s, hs, List.Sublist.cons e hsub⟩

/-! ### Grouping lemmas: `insertGrouped` folds to `groupSpec` -/

theorem mem_dedupFold (l : List String) :
    ∀ (acc : List String) (a : String),
      (a ∈ l.foldl (fun acc t => if t ∈ acc then acc else acc ++ [t]) acc) ↔
        (a ∈ acc ∨ a ∈ l) := by
  induction l with
  | nil => intro acc a; simp
  | cons t l ih =>
    intro acc a
    rw [List.foldl_cons, ih]
    by_cases ht : t ∈ acc
    · simp only [if_pos ht, List.mem_cons]
      constructor
      · rintro (h | h)
        · exact Or.inl h
        · exact Or.inr (Or.inr h)
      · rintro (h | h | h)
        · exact Or.inl h
        · exact Or.inl (h ▸ ht)
        · exact Or.inr h
    · simp only [if_neg ht, List.mem_append, List.mem_singleton,
        List.mem_cons]
      tauto

theorem mem_firstSeen {a : String} {l : List String} :
    a ∈ firstSeen l ↔ a ∈ l := by
  rw [firstSeen, mem_dedupFold]
  simp

theorem firstSeen_append_singleton (l : List String) (t : String) :
    firstSeen (l ++ [t]) =
      if t ∈ firstSeen l then firstSeen l else firstSeen l ++ [t] := by
  simp only [firstSeen, List.foldl_append, List.foldl_cons, List.foldl_nil]

theorem groupSpec_keys (pos : List Element) :
    (groupSpec pos).map Prod.fst = firstSeen (pos.map Element.tag) := by
  simp [groupSpec, List.map_map, Function.comp_def]

theorem groupSpec_hasKey (p : List Element) (e : Element) :
    ((groupSpec p).any (fun q => q.1 == e.tag) = true) ↔
      e.tag ∈ p.map Element.tag := by
  simp only [List.any_eq_true, beq_iff_eq]
  constructor
  · rintro ⟨q, hq, h1⟩
    have : q.1 ∈ (groupSpec p).map Prod.fst := List.mem_map_of_mem _ hq
    rw [groupSpec_keys, mem_firstSeen] at this
    exact h1 ▸ this
  · intro h
    have : e.tag ∈ (groupSpec p).map Prod.fst := by
      rw [groupSpec_keys, mem_firstSeen]; exact h
    obtain ⟨q, hq, h1⟩ := List.mem_map.mp this
    exact ⟨q, hq, h1⟩

theorem insertGrouped_groupSpec (p : List Element) (e : Element) :
    insertGrouped (groupSpec p) e = groupSpec (p ++ [e]) := by
  by_cases he : e.tag ∈ p.map Element.tag
  · have hRHS : groupSpec (p ++ [e]) =
        (firstSeen (p.map Element.tag)).map
          (fun t => (t, (p ++ [e]).filter (fun x => x.tag == t))) := by
      rw [groupSpec, List.map_append,
        show ([e].map Element.tag) = [e.tag] from rfl,
        firstSeen_append_singleton, if_pos (mem_firstSeen.mpr he)]
    rw [insertGrouped, if_pos ((groupSpec_hasKey p e).mpr he), hRHS,
      groupSpec, List.map_map]
    have hfun :
        ((fun q : String × List Element =>
            if q.1 == e.tag then (q.1, q.2 ++ [e]) else q) ∘
          (fun t => (t, p.filter (fun x => x.tag == t)))) =
        (fun t => (t, (p ++ [e]).filter (fun x => x.tag == t))) := by
      funext t
      by_cases ht : t = e.tag
      · subst ht
        simp [List.filter_append]
      · have h1 : (t == e.tag) = false := by
          simp [ht]
        have h2 : (e.tag == t) = false := by
          simp only [beq_eq_false_iff_ne, ne_eq]
          exact fun h => ht h.symm
        simp [Function.comp, h1, List.filter_append, h2]
    rw [hfun]
  · have hRHS : groupSpec (p ++ [e]) =
        (firstSeen (p.map Element.tag)).map
            (fun t => (t, (p ++ [e]).filter (fun x => x.tag == t))) ++
          ([e.tag].map
            (fun t => (t, (p ++ [e]).filter (fun x => x.tag == t)))) := by
      rw [groupSpec, List.map_append,
        show ([e].map Element.tag) = [e.tag] from rfl,
        firstSeen_append_singleton,
        if_neg (fun h => he (mem_firstSeen.mp h)), List.map_append]
    rw [insertGrouped, if_neg (fun h => he ((groupSpec_hasKey p e).mp h)),
      hRHS]
    have h1 :
        (firstSeen (p.map Element.tag)).map
            (fun t => (t, (p ++ [e]).filter (fun x => x.tag == t))) =
          (firstSeen (p.map Element.tag)).map
            (fun t => (t, p.filter (fun x => x.tag == t))) := by
      apply List.map_congr_left
      intro t ht
      have htp : t ∈ p.map Element.tag := mem_firstSeen.mp ht
      have hne : (e.tag == t) = false := by
        simp only [beq_eq_false_iff_ne, ne_eq]
        intro h
        exact he (h ▸ htp)
      simp [List.filter_append, hne]
    have h2 : ([e.tag].map
          (fun t => (t, (p ++ [e]).filter (fun x => x.tag == t)))) =
        [(e.tag, [e])] := by
      have hnil : p.filter (fun x => x.tag == e.tag) = [] := by
        rw [List.filter_eq_nil_iff]
        intro x hx h
        exact he (List.mem_map.mpr ⟨x, hx, beq_iff_eq.mp h⟩)
      simp [List.filter_append, hnil]
    rw [h1, h2, groupSpec]

theorem foldl_insertGrouped (l : List Element) :
    ∀ p, List.foldl insertGrouped (groupSpec p) l = groupSpec (p ++ l) := by
  induction l with
  | nil => intro p; simp
  | cons e l ih =>
    intro p
    rw [List.foldl_cons, insertGrouped_groupSpec, ih (p ++ [e])]
    simp

theorem mkElementLog_elements (pos : List Element) (t m : String) :
    (mkElementLog pos t m).elements = groupSpec pos := by
  show pos.foldl insertGrouped [] = groupSpec pos
  have h0 : ([] : List (String × List Element)) = groupSpec [] := rfl
  rw [h0, foldl_insertGrouped]
  simp

theorem groupSpec_bucket_ne_nil {pos : List Element}
    {q : String × List Element} (hq : q ∈ groupSpec pos) : q.2 ≠ [] := by
  obtain ⟨t, ht, rfl⟩ := List.mem_map.mp hq
  have htag : t ∈ pos.map Element.tag := mem_firstSeen.mp ht
  obtain ⟨e, he, rfl⟩ := List.mem_map.mp htag
  intro hnil
  have hnil' : pos.filter (fun x => x.tag == e.tag) = [] := hnil
  have hmem : e ∈ pos.filter (fun x => x.tag == e.tag) :=
    List.mem_filter.mpr ⟨he, by simp⟩
  rw [hnil'] at hmem
  exact absurd hmem (List.not_mem_nil e)

/-! ### Rendering lemmas: `logWarnings` equals the per-block rendering -/

theorem lineChunk_fold (es : List Element) :
    ∀ r, es.foldl lineChunk r =
      r ++ sjoin (es.map
        (fun e => " " ++ toString e.sourceline ++ ",")) := by
  induction es with
  | nil => intro r; simp [sjoin, sappend_empty]
  | cons e es ih =>
    intro r
    rw [List.foldl_cons, ih]
    exact sext (by simp [sdata_append, lineChunk, sjoin])

theorem strDropLast_lines (es : List Element) (hes : es ≠ []) :
    ∀ a, strDropLast (a ++ sjoin (es.map
        (fun e => " " ++ toString e.sourceline ++ ","))) =
      a ++ linesBody es := by
  induction es with
  | nil => exact absurd rfl hes
  | cons e es ih =>
    intro a
    cases es with
    | nil =>
      have hsplit : (" " ++ toString e.sourceline ++ ",") =
          (" " ++ toString e.sourceline) ++ ⟨[',']⟩ := rfl
      rw [List.map_cons, List.map_nil, sjoin_cons, sjoin, sappend_empty,
        hsplit, strDropLast_last, linesBody]
    | cons e2 es2 =>
      rw [List.map_cons, sjoin_cons, ← sappend_assoc,
        ih (List.cons_ne_nil e2 es2)
          (a ++ (" " ++ toString e.sourceline ++ ","))]
      exact sext (by simp [sdata_append, linesBody])

theorem tagChunk_eq (msgs : List (String × String))
    (p : String × List Element) (hp : p.2 ≠ []) (res : String) :
    tagChunk msgs res p = res ++ renderGroupSpec msgs p := by
  rw [tagChunk, lineChunk_fold, strDropLast_lines p.2 hp (res ++ "Lines"),
    renderGroupSpec]
  exact sext (by simp [sdata_append])

theorem tagChunk_fold (msgs : List (String × String))
    (groups : List (String × List Element))
    (hg : ∀ p ∈ groups, p.2 ≠ []) :
    ∀ acc, groups.foldl (tagChunk msgs) acc =
      acc ++ sjoin (groups.map (renderGroupSpec msgs)) := by
  induction groups with
  | nil => intro acc; simp [sjoin, sappend_empty]
  | cons p groups ih =>
    intro acc
    rw [List.foldl_cons, tagChunk_eq msgs p (hg p (by simp)) acc,
      ih (fun q hq => hg q (List.mem_cons_of_mem p hq))]
    exact sext (by simp [sdata_append, sjoin])

theorem logChunk_eq (olog : Option ElementLog)
    (h : ∀ lg, olog = some lg → ∀ p ∈ lg.elements, p.2 ≠ [])
    (res : String) : logChunk res olog = res ++ renderLog olog := by
  cases olog with
  | none => rw [logChunk, renderLog, sappend_empty]
  | some lg =>
    rw [logChunk, renderLog, tagChunk_fold lg.msgs lg.elements (h lg rfl)]
    exact sext (by simp [sdata_append])

theorem logChunk_fold (logs : List (Option ElementLog))
    (h : NiceLogs logs) :
    ∀ acc, logs.foldl logChunk acc = acc ++ sjoin (logs.map renderLog) := by
  induction logs with
  | nil => intro acc; simp [sjoin, sappend_empty]
  | cons olog logs ih =>
    intro acc
    rw [List.foldl_cons, logChunk_eq olog (h olog (by simp)),
      ih (fun o ho lg hlg => h o (List.mem_cons_of_mem olog ho) lg hlg)]
    exact sext (by simp [sdata_append, sjoin])

theorem logWarnings_eq_render (logs : List (Option ElementLog))
    (h : NiceLogs logs) :
    logWarnings logs = sjoin (logs.map renderLog) := by
  rw [logWarnings, logChunk_fold logs h ""]
  exact sext (by simp [sdata_append])

/-! ### `_WarningElement` and engine characterization -/

theorem warningElement_of_no_match {root : Element} {r : Rule}
    (h : root.iter.filter (fun e => r.tags.contains e.tag) = []) :
    warningElement root r = .ok none := by
  simp only [warningElement, h, evalLoop, List.isEmpty_nil, if_pos]

theorem warningElement_some {root : Element} {r : Rule}
    {olog : Option ElementLog} (h : warningElement root r = .ok olog) :
    ∀ lg, olog = some lg → lg.title = r.title ∧
      ∃ pos, pos ≠ [] ∧
        pos.Sublist (root.iter.filter (fun e => r.tags.contains e.tag)) ∧
        lg.elements = groupSpec pos := by
  intro lg hlg
  subst hlg
  simp only [warningElement] at h
  cases hev : evalLoop r.condition
      (root.iter.filter (fun e => r.tags.contains e.tag)) []
      (root.iter.filter (fun e => r.tags.contains e.tag)) with
  | error err => rw [hev] at h; exact absurd h (by simp)
  | ok tag_result =>
    rw [hev] at h
    replace h : Except.ok (ε := PyErr)
        (if tag_result.isEmpty then none
         else some (mkElementLog tag_result r.title r.error_msg)) =
        .ok (some lg) := h
    by_cases hemp : tag_result.isEmpty
    · rw [if_pos hemp] at h
      exact absurd h (by simp)
    · rw [if_neg hemp] at h
      have hlg : mkElementLog tag_result r.title r.error_msg = lg := by
        simpa using h
      obtain ⟨s, hs, hsub⟩ := evalLoop_ok_sublist hev
      rw [List.nil_append] at hs
      subst hs
      refine ⟨?_, tag_result, ?_, hsub, ?_⟩
      · rw [← hlg]; rfl
      · intro hnil
        rw [hnil] at hemp
        exact hemp rfl
      · rw [← hlg, mkElementLog_elements]

theorem warningElement_repeated_error {root : Element}
    (hne : root.iter.filter (fun e => repeatedTags.contains e.tag) ≠ []) :
    warningElement root repeatedRule = .error (.typeError missingArgMsg) := by
  obtain ⟨m, rest, hcons⟩ := List.exists_cons_of_ne_nil hne
  simp only [warningElement]
  rw [show repeatedRule.tags = repeatedTags from rfl, hcons,
    evalLoop_cons_error _ _
      (rfl :
        callCondition repeatedRule.condition m (m :: rest) =
          .error (.typeError missingArgMsg))]

theorem runEngine_ok {fs : FS} {pkg : String} {root : Element}
    {logs : List (Option ElementLog)}
    (h : runEngine fs pkg root = .ok logs) :
    ∃ w1 w2 w3 w4,
      warningElement root repeatedRule = .ok w1 ∧
      warningElement root (folderRule fs pkg) = .ok w2 ∧
      warningElement root (fileRule fs pkg) = .ok w3 ∧
      warningElement root (imagesRule fs pkg) = .ok w4 ∧
      logs = [w1, w2, w3, w4] := by
  rw [runEngine] at h
  cases h1 : warningElement root repeatedRule with
  | error e => rw [h1] at h; exact absurd h (by simp)
  | ok w1 =>
    rw [h1] at h
    cases h2 : warningElement root (folderRule fs pkg) with
    | error e => rw [h2] at h; exact absurd h (by simp)
    | ok w2 =>
      rw [h2] at h
      cases h3 : warningElement root (fileRule fs pkg) with
      | error e => rw [h3] at h; exact absurd h (by simp)
      | ok w3 =>
        rw [h3] at h
        cases h4 : warningElement root (imagesRule fs pkg) with
        | error e => rw [h4] at h; exact absurd h (by simp)
        | ok w4 =>
          rw [h4] at h
          exact ⟨w1, w2, w3, w4, rfl, rfl, rfl, rfl, by
            simpa using h.symm⟩

theorem warningElement_nice {root : Element} {r : Rule}
    {olog : Option ElementLog} (h : warningElement root r = .ok olog) :
    ∀ lg, olog = some lg → ∀ p ∈ lg.elements, p.2 ≠ [] := by
  intro lg hlg p hp
  obtain ⟨-, pos, -, -, helems⟩ := warningElement_some h lg hlg
  rw [helems] at hp
  exact groupSpec_bucket_ne_nil hp

theorem contains_of_mem {a : String} {l : List String} (h : a ∈ l) :
    l.contains a = true := by
  simpa using h

theorem mem_of_contains {a : String} {l : List String}
    (h : l.contains a = true) : a ∈ l := by
  simpa using h

/-! ## The claims -/

/--
C1 (code_bug evidence): for a tree with two `moduleName` elements
(lines 4 and 9), `check_warnings` does not produce the Repeated
Elements finding containing both — it raises a `TypeError` because the
two-parameter duplicate predicate is invoked with one argument.  The
predicate itself, applied the way its two parameters are declared,
returns true for both occurrences (the spec's intended behaviour).
-/
theorem repeated_duplicates_run_raises :
    check_warnings cOk fs0 "pkg" (some treeTwoModuleNames) =
        .error (.typeError missingArgMsg) ∧
      groupApply repeatedCondition (mnElem 4) [mnElem 4, mnElem 9] =
        .ok true ∧
      groupApply repeatedCondition (mnElem 9) [mnElem 4, mnElem 9] =
        .ok true :=
  ⟨rfl, rfl, rfl⟩

/--
C2 (code_bug evidence): the arity test
`signature(condition).parameters == 2` evaluates to false for every
condition, so on a tree with a single `moduleName` element the group
predicate is invoked with one argument instead of
`(element, full matched sequence)` and the run raises `TypeError`.
-/
theorem group_arity_dispatch_never_fires :
    signatureParamsEq2 repeatedCondition = false ∧
      check_warnings cOk fs0 "pkg" (some treeOneModuleName) =
        .error (.typeError missingArgMsg) :=
  ⟨rfl, rfl⟩

/--
C3 counterexample: a `folder` element lacking the `source` attribute is
not flagged — `check_warnings` crashes with the `TypeError` raised by
joining a `None` path, contradicting "treats the element's referenced
path as nonexistent and flags the element; check_warnings never crashes
on such an element".
-/
theorem missing_source_attr_crashes_run :
    check_warnings cOk fs0 "pkg" (some treeFolderNoSource) =
      .error (.typeError joinNoneMsg) := rfl

/--
C3 (amended): for every `folder`/`file` element without a `source`
attribute and every `moduleImage`/`image` element without a `path`
attribute, the filesystem-dependent predicate does not flag the element
— it raises a `TypeError` (from joining a `None` path), which
`check_warnings` does not catch.
-/
theorem missing_attr_predicate_raises (fs : FS) (pkg : String)
    (e : Element) (x : List Element) :
    (e.get "source" = none →
      callCondition (folderCondition fs pkg) e x =
          .error (.typeError joinNoneMsg) ∧
        callCondition (fileCondition fs pkg) e x =
          .error (.typeError joinNoneMsg)) ∧
    (e.get "path" = none →
      callCondition (imagesCondition fs pkg) e x =
        .error (.typeError joinNoneMsg)) := by
  refine ⟨fun h => ⟨?_, ?_⟩, fun h => ?_⟩
  · simp [callCondition, signatureParamsEq2, folderCondition, h, pyJoinOpt]
  · simp [callCondition, signatureParamsEq2, fileCondition, h, pyJoinOpt]
  · simp [callCondition, signatureParamsEq2, imagesCondition, h, pyJoinOpt]

/-- C3 witness: the amended statement evaluated on concrete attribute
free `folder` and `image` elements. -/
theorem missing_attr_predicate_raises_witness :
    callCondition (folderCondition fs0 "pkg") folderNoSource
        [folderNoSource] = .error (.typeError joinNoneMsg) ∧
      callCondition (fileCondition fs0 "pkg") folderNoSource
        [folderNoSource] = .error (.typeError joinNoneMsg) ∧
      callCondition (imagesCondition fs0 "pkg") imageNoPath
        [imageNoPath] = .error (.typeError joinNoneMsg) :=
  ⟨((missing_attr_predicate_raises fs0 "pkg" folderNoSource
      [folderNoSource]).1 rfl).1,
   ((missing_attr_predicate_raises fs0 "pkg" folderNoSource
      [folderNoSource]).1 rfl).2,
   (missing_attr_predicate_raises fs0 "pkg" imageNoPath
      [imageNoPath]).2 rfl⟩

/--
C4 counterexample: a `file` element lacking `source` makes the
predicate raise `TypeError`; the element is not "treated as not
matching" and evaluation does not continue — the run aborts with that
`TypeError` instead of returning successfully.
-/
theorem predicate_exception_aborts_run :
    check_warnings cOk fs0 "pkg" (some treeFileNoSource) =
      .error (.typeError joinNoneMsg) := rfl

/--
C4 (amended): an unexpected `TypeError` raised while evaluating a
rule's predicate propagates out of `check_warnings` unchanged (the
`except` clauses only handle the locator and parse error kinds), so the
exception aborts the whole run.
-/
theorem engine_typeError_aborts (c : Collab) (fs : FS) (pkg : String)
    (tree : Option Element) (root : Element) (m : String)
    (hres : resolveRoot c pkg tree = .ok root)
    (heng : runEngine fs pkg root = .error (.typeError m)) :
    check_warnings c fs pkg tree = .error (.typeError m) := by
  simp only [check_warnings, hres, runBodyOnRoot, heng]
  rfl

/-- C4 witness: a concrete `image` element without `path` whose
predicate `TypeError` aborts the run. -/
theorem engine_typeError_aborts_witness :
    check_warnings cOk fs0 "pkg" (some treeImageNoPath) =
      .error (.typeError joinNoneMsg) :=
  engine_typeError_aborts cOk fs0 "pkg" (some treeImageNoPath)
    treeImageNoPath joinNoneMsg rfl rfl

/--
C5: on every run that reaches rendering (the tree resolved and all four
rules evaluated without an exception), `check_warnings` raises
`WarningError` carrying the rendered report exactly when the rendered
report is nonempty, and returns successfully when it is empty.
-/
theorem warning_raised_iff_report_nonempty (c : Collab) (fs : FS)
    (pkg : String) (tree : Option Element) (root : Element)
    (logs : List (Option ElementLog))
    (hres : resolveRoot c pkg tree = .ok root)
    (heng : runEngine fs pkg root = .ok logs) :
    check_warnings c fs pkg tree =
      if logWarnings logs = "" then .ok ()
      else .error (.warningError (logWarnings logs)) := by
  simp only [check_warnings, hres, runBodyOnRoot, heng]
  by_cases hrep : logWarnings logs = ""
  · rw [if_pos hrep]
    rfl
  · rw [if_neg hrep]
    rfl

/-- C5 witness: a concrete clean run. -/
theorem warning_raised_iff_report_nonempty_witness :
    check_warnings cOk fs0 "pkg" (some treeClean) =
      if logWarnings [none, none, none, none] = "" then .ok ()
      else .error (.warningError (logWarnings [none, none, none, none])) :=
  warning_raised_iff_report_nonempty cOk fs0 "pkg" (some treeClean)
    treeClean [none, none, none, none] rfl rfl

/--
C6 counterexample: for a supplied pre-parsed tree whose root has no
children, the outcome of `check_warnings` depends on the collaborators
— with a failing locator it returns `MissingFolderError`, with working
collaborators it succeeds — so the supplied tree is not the one
validated and the collaborators are invoked, contradicting the claim.
-/
theorem childless_tree_consults_collaborators :
    check_warnings cFail fs0 "pkg" (some emptyRoot) =
        .error .missingFolderError ∧
      check_warnings cOk fs0 "pkg" (some emptyRoot) = .ok () :=
  ⟨rfl, rfl⟩

/--
C6 (amended): when the supplied pre-parsed tree has at least one child
(it is truthy under lxml truth testing), it is the tree validated and
the run is independent of the collaborators; a childless supplied tree
is treated as absent and the descriptor is located and parsed instead.
-/
theorem supplied_tree_skips_collaborators (c : Collab) (fs : FS)
    (pkg : String) (t : Element) (h : t.children ≠ []) :
    check_warnings c fs pkg (some t) = reraise (runBodyOnRoot fs pkg t) := by
  rw [check_warnings, resolveRoot,
    if_neg (fun hh => h (List.isEmpty_iff.mp hh))]

/-- C6 witness: a concrete supplied tree with children. -/
theorem supplied_tree_skips_collaborators_witness :
    check_warnings cFail fs0 "pkg" (some treeClean) =
      reraise (runBodyOnRoot fs0 "pkg" treeClean) :=
  supplied_tree_skips_collaborators cFail fs0 "pkg" treeClean
    (List.cons_ne_nil _ _)

/--
C7: on a resolved tree containing no element whose tag is in any
rule's tag set, every rule produces an empty log, the rendered report
is empty, and `check_warnings` returns successfully.
-/
theorem no_matching_tags_clean_run (c : Collab) (fs : FS) (pkg : String)
    (tree : Option Element) (t : Element)
    (hres : resolveRoot c pkg tree = .ok t)
    (hno : ∀ e ∈ t.iter, ¬ e.tag ∈ allRuleTags) :
    runEngine fs pkg t = .ok [none, none, none, none] ∧
      logWarnings [none, none, none, none] = "" ∧
      check_warnings c fs pkg tree = .ok () := by
  have hfilter : ∀ tags : List String, (∀ x ∈ tags, x ∈ allRuleTags) →
      t.iter.filter (fun e => tags.contains e.tag) = [] := by
    intro tags hsub
    rw [List.filter_eq_nil_iff]
    intro e he hc
    exact hno e he (hsub e.tag (mem_of_contains hc))
  have h1 : warningElement t repeatedRule = .ok none :=
    warningElement_of_no_match (hfilter repeatedTags
      (by intro x hx; simp only [allRuleTags, List.mem_append]; tauto))
  have h2 : warningElement t (folderRule fs pkg) = .ok none :=
    warningElement_of_no_match (hfilter ["folder"]
      (by intro x hx; simp only [allRuleTags, List.mem_append]; tauto))
  have h3 : warningElement t (fileRule fs pkg) = .ok none :=
    warningElement_of_no_match (hfilter ["file"]
      (by intro x hx; simp only [allRuleTags, List.mem_append]; tauto))
  have h4 : warningElement t (imagesRule fs pkg) = .ok none :=
    warningElement_of_no_match (hfilter ["moduleImage", "image"]
      (by intro x hx; simp only [allRuleTags, List.mem_append]; tauto))
  have heng : runEngine fs pkg t = .ok [none, none, none, none] := by
    simp only [runEngine, h1, h2, h3, h4]
  refine ⟨heng, rfl, ?_⟩
  simp only [check_warnings, hres, runBodyOnRoot, heng]
  rfl

/-- C7 witness: a concrete tree with no rule-relevant tags. -/
theorem no_matching_tags_clean_run_witness :
    runEngine fs0 "pkg" treeClean = .ok [none, none, none, none] ∧
      logWarnings [none, none, none, none] = "" ∧
      check_warnings cOk fs0 "pkg" (some treeClean) = .ok () :=
  no_matching_tags_clean_run cOk fs0 "pkg" (some treeClean) treeClean rfl
    (by decide)

/--
C9: without a pre-parsed tree, a `MissingFolderError` from the
descriptor locator and a `MissingFileError` from the descriptor file
finder propagate unchanged out of `check_warnings`, while a parse
failure is propagated wrapped as `ParserError`.
-/
theorem locator_errors_propagate (c : Collab) (fs : FS) (pkg : String) :
    (c.check_fomod pkg = .error .missingFolderError →
      check_warnings c fs pkg none = .error .missingFolderError) ∧
    (∀ f, c.check_fomod pkg = .ok f →
      c.check_file (pyJoinStr pkg f) = .error .missingFileError →
      check_warnings c fs pkg none = .error .missingFileError) ∧
    (∀ f g s, c.check_fomod pkg = .ok f →
      c.check_file (pyJoinStr pkg f) = .ok g →
      c.parse (pyJoinStr (pyJoinStr pkg f) g) = .error (.parseError s) →
      check_warnings c fs pkg none = .error (.parserError s)) := by
  refine ⟨fun h => ?_, fun f hf h => ?_, fun f g s hf hg hp => ?_⟩
  · simp only [check_warnings, resolveRoot, parseDescriptor, h]
    rfl
  · simp only [check_warnings, resolveRoot, parseDescriptor, hf, h]
    rfl
  · simp only [check_warnings, resolveRoot, parseDescriptor, hf, hg, hp]
    rfl

/-- C9 witness: the three propagation shapes at concrete collaborators. -/
theorem locator_errors_propagate_witness :
    check_warnings cFail fs0 "pkg" none = .error .missingFolderError ∧
      check_warnings cFileFail fs0 "pkg" none = .error .missingFileError ∧
      check_warnings cParseFail fs0 "pkg" none =
        .error (.parserError "junk after document element") :=
  ⟨(locator_errors_propagate cFail fs0 "pkg").1 rfl,
   (locator_errors_propagate cFileFail fs0 "pkg").2.1 "fomod" rfl rfl,
   (locator_errors_propagate cParseFail fs0 "pkg").2.2 "fomod"
     "ModuleConfig.xml" "junk after document element" rfl rfl rfl⟩

/--
C10: on every resolved tree containing at least one element whose tag
is in the Repeated Elements tag set, `check_warnings` raises a
`TypeError` that escapes to the caller: the arity test is always false,
so the two-parameter group predicate is invoked with a single argument.
-/
theorem repeated_tag_raises_typeError (c : Collab) (fs : FS)
    (pkg : String) (tree : Option Element) (root : Element)
    (hres : resolveRoot c pkg tree = .ok root)
    (hex : ∃ e ∈ root.iter, e.tag ∈ repeatedTags) :
    check_warnings c fs pkg tree = .error (.typeError missingArgMsg) := by
  obtain ⟨e, he, htag⟩ := hex
  have hne : root.iter.filter
      (fun x => repeatedTags.contains x.tag) ≠ [] := by
    intro hnil
    rw [List.filter_eq_nil_iff] at hnil
    exact hnil e he (contains_of_mem htag)
  have heng : runEngine fs pkg root =
      .error (.typeError missingArgMsg) := by
    rw [runEngine, warningElement_repeated_error hne]
  simp only [check_warnings, hres, runBodyOnRoot, heng]
  rfl

/-- C10 witness: a concrete tree with one `installSteps` element. -/
theorem repeated_tag_raises_typeError_witness :
    check_warnings cOk fs0 "pkg" (some treeInstallSteps) =
      .error (.typeError missingArgMsg) :=
  repeated_tag_raises_typeError cOk fs0 "pkg" (some treeInstallSteps)
    treeInstallSteps rfl
    ⟨Element.mk "installSteps" [] 2 [],
     List.mem_cons_of_mem _ (List.mem_cons_self _ _), by decide⟩

/--
C8: on every run that produces a report, the rendered output is the
concatenation, in rule-declaration order, of the per-rule blocks
(`renderLog`), and each rule's log groups a nonempty, document-order
subsequence of the rule's matched elements by tag, with the tag groups
in first-matched order and each group the order-preserving filter of
those elements to its tag (`groupSpec`).
-/
theorem report_grouping_and_order (fs : FS) (pkg : String)
    (root : Element) (logs : List (Option ElementLog))
    (heng : runEngine fs pkg root = .ok logs) :
    logWarnings logs = sjoin (logs.map renderLog) ∧
      List.Forall₂
        (fun olog (r : Rule) =>
          ∀ lg, olog = some lg →
            lg.title = r.title ∧
            ∃ pos, pos ≠ [] ∧
              pos.Sublist
                (root.iter.filter (fun e => r.tags.contains e.tag)) ∧
              lg.elements = groupSpec pos)
        logs (makeRules fs pkg) := by
  obtain ⟨w1, w2, w3, w4, h1, h2, h3, h4, hl⟩ := runEngine_ok heng
  subst hl
  constructor
  · apply logWarnings_eq_render
    intro olog ho lg hlg p hp
    have ho' : olog = w1 ∨ olog = w2 ∨ olog = w3 ∨ olog = w4 := by
      simpa using ho
    rcases ho' with rfl | rfl | rfl | rfl
    · exact warningElement_nice h1 lg hlg p hp
    · exact warningElement_nice h2 lg hlg p hp
    · exact warningElement_nice h3 lg hlg p hp
    · exact warningElement_nice h4 lg hlg p hp
  · rw [makeRules]
    exact List.Forall₂.cons (warningElement_some h1)
      (List.Forall₂.cons (warningElement_some h2)
        (List.Forall₂.cons (warningElement_some h3)
          (List.Forall₂.cons (warningElement_some h4) List.Forall₂.nil)))

/-- C8 witness: the report-producing run on two missing source folders. -/
theorem report_grouping_and_order_witness :
    logWarnings witLogs = sjoin (witLogs.map renderLog) ∧
      List.Forall₂
        (fun olog (r : Rule) =>
          ∀ lg, olog = some lg →
            lg.title = r.title ∧
            ∃ pos, pos ≠ [] ∧
              pos.Sublist
                (treeTwoFolders.iter.filter
                  (fun e => r.tags.contains e.tag)) ∧
              lg.elements = groupSpec pos)
        witLogs (makeRules fs0 "pkg") :=
  report_grouping_and_order fs0 "pkg" treeTwoFolders witLogs rfl

end Fomod
